import Mathlib

/-!
Verification development for the on-screen-display (OSD) message overlay of
`Source/Core/VideoCommon/OnScreenDisplay.cpp`.

The C++ code is shallowly embedded: machine floats used for layout and fade
arithmetic are modelled over `ℚ`, the `s64` remaining-time arithmetic over
`ℤ`, `std::multimap<MessageType, Message>` as a key-sorted list of pairs with
stable insertion at the upper bound of equal keys, and the rendering backend
(ImGui), timer and configuration store as an explicit environment record
(`DrawEnv`).  Drawing is instrumented by `DrawEvent` records describing the
calls made to the backend (pushed alpha, window position, measured footprint).
-/

namespace OSD

/-- `LEFT_MARGIN`: pixels to the left of OSD messages. -/
def LEFT_MARGIN : ℚ := 10

/-- `TOP_MARGIN`: pixels above the first OSD message. -/
def TOP_MARGIN : ℚ := 10

/-- `WINDOW_PADDING`: pixels between subsequent OSD messages. -/
def WINDOW_PADDING : ℚ := 4

/-- `MESSAGE_FADE_TIME`: ms to fade OSD messages at the end of their life. -/
def MESSAGE_FADE_TIME : ℚ := 1000

/-- `MESSAGE_DROP_TIME`: ms to drop OSD messages that have yet to ever render.
Kept as an integer since it is compared against the `s64` remaining time. -/
def MESSAGE_DROP_TIME : ℤ := 5000

/-- Modelled from the spec: the header `OnScreenDisplay.h` declaring
`enum class MessageType` is not part of the sources; type tags form an
ordered key space (the multimap key) with a designated "typeless" sentinel,
so they are modelled as natural numbers. -/
abbrev MessageType := ℕ

/-- Modelled from the spec: the sentinel type tag meaning "no replacement
semantics, no dedup key".  Its numeric value is arbitrary; no behaviour in
the source depends on where it sorts among the other tags. -/
def Typeless : MessageType := 0

/-- `OSD::Icon`: a raw bitmap (dimensions only; the pixel bytes play no role
in the verified behaviour). -/
structure Icon where
  width : ℕ
  height : ℕ
deriving DecidableEq, Repr

/-- `OSD::Message`: one notification's data and timing state.  The
`Common::Timer` started at construction is modelled by recording the creation
timestamp `createdAt`; elapsed time is `now - createdAt`. -/
structure Message where
  text : String
  createdAt : ℤ
  duration : ℕ
  ever_drawn : Bool
  should_discard : Bool
  color : ℕ
  icon : Option Icon
  texture : Option Icon
  scale : ℚ
deriving DecidableEq, Repr

/-- The `Message` constructor: starts the timer (records `now`), leaves
`ever_drawn`/`should_discard` false and the texture not yet created. -/
def Message.make (text : String) (now : ℤ) (duration : ℕ) (color : ℕ)
    (icon : Option Icon) (scale : ℚ) : Message :=
  ⟨text, now, duration, false, false, color, icon, none, scale⟩

/-- `Message::TimeRemaining`: `duration - timer.ElapsedMs()` as a signed
64-bit quantity. -/
def Message.TimeRemaining (m : Message) (now : ℤ) : ℤ :=
  (m.duration : ℤ) - (now - m.createdAt)

/-- `OSD::MessageStackDirection`. -/
inductive MessageStackDirection where
  | Downward
  | Upward
  | Leftward
  | Rightward
deriving DecidableEq, Repr

/-- `OSD::OSDMessageStack`: layout policy plus the ordered multimap of
messages.  The multimap is modelled as a list of (type tag, message) pairs,
sorted by tag with insertion order preserved among equal tags. -/
structure OSDMessageStack where
  initialPosOffset : ℚ × ℚ
  dir : MessageStackDirection
  centered : Bool
  reversed : Bool
  name : String
  messages : List (MessageType × Message)
deriving DecidableEq, Repr

/-- `OSDMessageStack::IsVertical`. -/
def OSDMessageStack.IsVertical (s : OSDMessageStack) : Bool :=
  s.dir = MessageStackDirection.Downward ∨ s.dir = MessageStackDirection.Upward

/-- `OSDMessageStack::HasMessage`: true when some entry has exactly this type
tag and text (the `should_discard` flag is not consulted). -/
def OSDMessageStack.HasMessage (s : OSDMessageStack) (message : String)
    (type : MessageType) : Bool :=
  s.messages.any (fun e => type = e.1 ∧ message = e.2.text)

/-- The default-constructed `OSDMessageStack()`:
`OSDMessageStack(0, 0, Downward, false, false, "")`. -/
def s_defaultMessageStack : OSDMessageStack :=
  ⟨(0, 0), MessageStackDirection.Downward, false, false, "", []⟩

/-- `std::multimap::emplace`: insert before the first entry with a strictly
greater key (the upper bound), i.e. after every entry with an equal key. -/
def mmInsert : List (MessageType × Message) → MessageType → Message →
    List (MessageType × Message)
  | [], t, m => [(t, m)]
  | e :: rest, t, m =>
    if e.1 ≤ t then e :: mmInsert rest t m else (t, m) :: e :: rest

/-- The global registry: the default stack plus the name-keyed
`std::map<std::string, OSDMessageStack>`, modelled as a name-sorted
association list with unique keys. -/
structure OSDState where
  defaultStack : OSDMessageStack
  messageStacks : List (String × OSDMessageStack)
deriving DecidableEq, Repr

/-- The initial registry: default-constructed default stack, no named stacks. -/
def initialState : OSDState := ⟨s_defaultMessageStack, []⟩

/-- `std::map::contains`. -/
def mapContains (l : List (String × OSDMessageStack)) (k : String) : Bool :=
  l.any (fun p => p.1 = k)

/-- `std::map::operator[]` lookup (only ever used after a `contains` check). -/
def mapGetD (l : List (String × OSDMessageStack)) (k : String) : OSDMessageStack :=
  ((l.find? (fun p => p.1 = k)).map Prod.snd).getD s_defaultMessageStack

/-- Writing back through the pointer obtained from `operator[]`: replace the
value of the first entry with this key. -/
def mapSet : List (String × OSDMessageStack) → String → OSDMessageStack →
    List (String × OSDMessageStack)
  | [], _, _ => []
  | p :: rest, k, v => if p.1 = k then (p.1, v) :: rest else p :: mapSet rest k v

/-- `std::map::emplace`: key-sorted insert-if-absent (first registration for a
given name wins). -/
def mapEmplace : List (String × OSDMessageStack) → String → OSDMessageStack →
    List (String × OSDMessageStack)
  | [], k, v => [(k, v)]
  | p :: rest, k, v =>
    if k < p.1 then (k, v) :: p :: rest
    else if k = p.1 then p :: rest
    else p :: mapEmplace rest k v

/-- The body of `AddTypedMessage` acting on the selected stack: duplicate
suppression, marking of same-typed messages for discard, and emplacement of
the new message. -/
def addToStack (stack : OSDMessageStack) (type : MessageType) (message : String)
    (ms : ℕ) (argb : ℕ) (icon : Option Icon) (prevent_duplicate : Bool)
    (scale : ℚ) (now : ℤ) : OSDMessageStack :=
  if prevent_duplicate ∧ stack.HasMessage message type then stack
  else
    let stack1 :=
      if type ≠ Typeless then
        { stack with
          messages := stack.messages.map (fun e =>
            if e.1 = type then (e.1, { e.2 with should_discard := true }) else e) }
      else stack
    { stack1 with
      messages := mmInsert stack1.messages type (Message.make message now ms argb icon scale) }

/-- Which stack an `Add*` call operates on: the registered stack of that name
when one exists, otherwise the default stack. -/
def selectStack (st : OSDState) (message_stack : String) : OSDMessageStack :=
  if mapContains st.messageStacks message_stack then mapGetD st.messageStacks message_stack
  else st.defaultStack

/-- `OSD::AddTypedMessage`. -/
def AddTypedMessage (st : OSDState) (type : MessageType) (message : String)
    (ms : ℕ) (argb : ℕ) (icon : Option Icon) (message_stack : String)
    (prevent_duplicate : Bool) (scale : ℚ) (now : ℤ) : OSDState :=
  if mapContains st.messageStacks message_stack then
    { st with
      messageStacks := mapSet st.messageStacks message_stack
        (addToStack (mapGetD st.messageStacks message_stack) type message ms argb icon
          prevent_duplicate scale now) }
  else
    { st with
      defaultStack := addToStack st.defaultStack type message ms argb icon
        prevent_duplicate scale now }

/-- `OSD::AddMessage`: the typeless wrapper. -/
def AddMessage (st : OSDState) (message : String) (ms : ℕ) (argb : ℕ)
    (icon : Option Icon) (message_stack : String) (prevent_duplicate : Bool)
    (scale : ℚ) (now : ℤ) : OSDState :=
  AddTypedMessage st Typeless message ms argb icon message_stack prevent_duplicate scale now

/-- `OSD::AddMessageStack`. -/
def AddMessageStack (st : OSDState) (x_offset y_offset : ℚ)
    (dir : MessageStackDirection) (centered reversed : Bool) (name : String) :
    OSDState :=
  { st with
    messageStacks := mapEmplace st.messageStacks name
      ⟨(x_offset, y_offset), dir, centered, reversed, name, []⟩ }

/-- `OSD::ClearMessages`. -/
def ClearMessages (st : OSDState) : OSDState :=
  ⟨{ st.defaultStack with messages := [] },
   st.messageStacks.map (fun p => (p.1, { p.2 with messages := [] }))⟩

/-- The environment consumed by a draw pass: the configuration toggle, the
obscured-pixel margin state, the ImGui display metrics, the backend's
responses (per draw index: whether `Begin` reports the window visible and
what size `GetWindowSize` reports), whether `CreateTexture` succeeds, and the
current time. -/
structure DrawEnv where
  draw_messages : Bool
  obscured_left : ℚ
  obscured_top : ℚ
  fbScale : ℚ × ℚ
  displaySize : ℚ × ℚ
  beginVisible : ℕ → Bool
  windowSize : ℕ → ℚ × ℚ
  textureOk : Bool
  now : ℤ

/-- Instrumentation record for one `DrawMessage` call: the backend-visible
effects (pushed alpha, `Begin` result, `SetWindowPos` position) plus the data
of the message at the time of the call. -/
structure DrawEvent where
  index : ℕ
  window_name : String
  text : String
  duration : ℕ
  time_left : ℤ
  first_draw : Bool
  alpha : ℚ
  visible : Bool
  pos : Option (ℚ × ℚ)
  size : ℚ × ℚ
deriving DecidableEq, Repr

/-- `std::clamp`. -/
def stdClamp (v lo hi : ℚ) : ℚ :=
  if v < lo then lo else if hi < v then hi else v

/-- `OSD::DrawMessage`: returns the updated message, the measured footprint
(`window_width`, `window_height`) and the instrumentation event. -/
def DrawMessage (env : DrawEnv) (index : ℕ) (msg : Message) (position : ℚ × ℚ)
    (time_left : ℤ) (message_Stack : OSDMessageStack) :
    Message × (ℚ × ℚ) × DrawEvent :=
  let window_name := "osd_" ++ message_Stack.name ++ "_" ++ toString index
  let fade_time : ℚ := max (min MESSAGE_FADE_TIME (msg.duration : ℚ)) 1
  let alpha : ℚ := stdClamp ((time_left : ℚ) / fade_time) 0 1
  let pushed : ℚ := if msg.ever_drawn then alpha else 1
  if env.beginVisible index then
    let msg1 :=
      match msg.icon, msg.texture with
      | some ic, none =>
        if env.textureOk then { msg with texture := some ic }
        else { msg with icon := none }
      | _, _ => msg
    let ws := env.windowSize index
    let window_width := ws.1 + WINDOW_PADDING * env.fbScale.1
    let window_height := ws.2 + WINDOW_PADDING * env.fbScale.2
    let x_pos1 :=
      if message_Stack.centered ∧ message_Stack.IsVertical then
        env.displaySize.1 / 2 - window_width / 2
      else position.1
    let y_pos1 :=
      if message_Stack.centered ∧ ¬message_Stack.IsVertical then
        env.displaySize.2 / 2 - window_height / 2
      else position.2
    let x_pos2 :=
      if message_Stack.dir = MessageStackDirection.Leftward then x_pos1 - window_width
      else x_pos1
    let y_pos2 :=
      if message_Stack.dir = MessageStackDirection.Upward then y_pos1 - window_height
      else y_pos1
    ({ msg1 with ever_drawn := true }, (window_width, window_height),
      ⟨index, window_name, msg.text, msg.duration, time_left, !msg.ever_drawn,
        pushed, true, some (x_pos2, y_pos2), (window_width, window_height)⟩)
  else
    ({ msg with ever_drawn := true }, (0, 0),
      ⟨index, window_name, msg.text, msg.duration, time_left, !msg.ever_drawn,
        pushed, false, none, (0, 0)⟩)

/-- Cursor advance after a draw: along the stack's primary axis by the
measured footprint, with sign matching the direction. -/
def advanceCursor (stack : OSDMessageStack) (cur : ℚ × ℚ) (size : ℚ × ℚ) :
    ℚ × ℚ :=
  if stack.IsVertical then
    (cur.1, cur.2 + (if stack.dir = MessageStackDirection.Upward then -size.2 else size.2))
  else
    (cur.1 + (if stack.dir = MessageStackDirection.Leftward then -size.1 else size.1), cur.2)

/-- The starting cursor of `DrawMessages(stack)`: margins plus obscured
pixels plus the stack's offset, mirrored for Leftward/Upward stacks. -/
def startCursor (env : DrawEnv) (stack : OSDMessageStack) : ℚ × ℚ :=
  let cx := LEFT_MARGIN * env.fbScale.1 + env.obscured_left + stack.initialPosOffset.1
  let cy := TOP_MARGIN * env.fbScale.2 + env.obscured_top + stack.initialPosOffset.2
  ((if stack.dir = MessageStackDirection.Leftward then env.displaySize.1 - cx else cx),
   (if stack.dir = MessageStackDirection.Upward then env.displaySize.2 - cy else cy))

/-- The pruning/drawing loop of `DrawMessages(stack)` over the messages in
visit order: discarded entries are erased; expired entries (no time left and
either already drawn once or expired past the drop threshold) are erased;
surviving entries are drawn when the toggle is on, advancing the cursor and
the window index.  Returns the surviving entries (in visit order) and the
instrumentation events. -/
def processMessages (env : DrawEnv) (stack : OSDMessageStack) :
    List (MessageType × Message) → ℚ × ℚ → ℕ →
    List (MessageType × Message) × List DrawEvent
  | [], _, _ => ([], [])
  | (t, msg) :: rest, cur, index =>
    if msg.should_discard then processMessages env stack rest cur index
    else
      let time_left := msg.TimeRemaining env.now
      if time_left ≤ 0 ∧ (msg.ever_drawn ∨ MESSAGE_DROP_TIME ≤ -time_left) then
        processMessages env stack rest cur index
      else if env.draw_messages then
        let r := DrawMessage env index msg cur time_left stack
        let rec1 := processMessages env stack rest (advanceCursor stack cur r.2.1) (index + 1)
        ((t, r.1) :: rec1.1, r.2.2 :: rec1.2)
      else
        let rec1 := processMessages env stack rest cur index
        ((t, msg) :: rec1.1, rec1.2)

/-- `OSD::DrawMessages(OSDMessageStack&)`: visit the multimap in storage
order, or in reverse when `reversed` is set; the surviving messages keep
their storage order. -/
def DrawMessagesStack (env : DrawEnv) (stack : OSDMessageStack) :
    OSDMessageStack × List DrawEvent :=
  let cur := startCursor env stack
  if stack.reversed then
    let r := processMessages env stack stack.messages.reverse cur 0
    ({ stack with messages := r.1.reverse }, r.2)
  else
    let r := processMessages env stack stack.messages cur 0
    ({ stack with messages := r.1 }, r.2)

/-- The named-stack half of `OSD::DrawMessages()`: each registered stack is
drawn in map order. -/
def drawStacksList (env : DrawEnv) :
    List (String × OSDMessageStack) →
    List (String × OSDMessageStack) × List DrawEvent
  | [] => ([], [])
  | (n, s) :: rest =>
    let r := DrawMessagesStack env s
    let rr := drawStacksList env rest
    ((n, r.1) :: rr.1, r.2 ++ rr.2)

/-- `OSD::DrawMessages()`: the default stack first, then every named stack in
map order. -/
def DrawMessagesAll (env : DrawEnv) (st : OSDState) : OSDState × List DrawEvent :=
  let d := DrawMessagesStack env st.defaultStack
  let r := drawStacksList env st.messageStacks
  (⟨d.1, r.1⟩, d.2 ++ r.2)

/-- The identity of a message that a draw pass preserves: its text, creation
time, duration, colour and scale (only `ever_drawn`, `icon` and `texture` can
change when a message is drawn). -/
def entryCore (e : MessageType × Message) : MessageType × String × ℤ × ℕ × ℕ × ℚ :=
  (e.1, e.2.text, e.2.createdAt, e.2.duration, e.2.color, e.2.scale)

/-- Whether a visited message survives the pruning checks of the draw loop
(the `should_discard` erase and the expiry erase of `DrawMessages`). -/
def visitKeep (now : ℤ) (m : Message) : Bool :=
  ¬ m.should_discard = true ∧
  ¬ (m.TimeRemaining now ≤ 0 ∧ (m.ever_drawn = true ∨ MESSAGE_DROP_TIME ≤ -(m.TimeRemaining now)))

/-- A list of draw events whose windows sit at successive y coordinates
starting at `y`, each advanced by the previous event's measured height. -/
def YChain : ℚ → List DrawEvent → Prop
  | _, [] => True
  | y, ev :: rest => (∃ x, ev.pos = some (x, y)) ∧ YChain (y + ev.size.2) rest

/-- A concrete draw environment: drawing enabled, every window visible, backend size (20, 7), time 100 ms. -/
def envDraw : DrawEnv := ⟨true, 0, 0, (1, 1), (640, 480), fun _ => true, fun _ => (20, 7), true, 100⟩

/-- The same environment with the draw-messages toggle off. -/
def envOff : DrawEnv := { envDraw with draw_messages := false }

/-- The same environment with the backend reporting every window not visible. -/
def envHidden : DrawEnv := { envDraw with beginVisible := fun _ => false }

/-- A 10-second message created at time 0. -/
def msgA : Message := Message.make ("A") 0 10000 0 none 1

/-- A second 10-second message created at time 0. -/
def msgB : Message := Message.make ("B") 0 10000 0 none 1

/-- A message requested with duration 0, created at time 0. -/
def msgZero : Message := Message.make ("Z") 0 0 0 none 1

/-- A default-shaped stack holding one tag-1 message. -/
def stackOne : OSDMessageStack := { s_defaultMessageStack with messages := [(1, msgA)] }

/-- A default-shaped (downward, non-centered) stack holding two tag-1 messages. -/
def stackTwo : OSDMessageStack := { s_defaultMessageStack with messages := [(1, msgA), (1, msgB)] }

/-- A reversed stack built by adding "A" under tag 2 at time 0 and then "B" under tag 1 at time 5. -/
def stackRevCross : OSDMessageStack :=
  addToStack (addToStack { s_defaultMessageStack with reversed := true }
    2 "A" 10000 0 none false 1 0) 1 "B" 10000 0 none false 1 5

/-- A reversed stack holding two messages under the same tag, A stored before B. -/
def stackRevSame : OSDMessageStack :=
  { s_defaultMessageStack with reversed := true, messages := [(1, msgA), (1, msgB)] }

/-- A registry holding one tag-3 message "dup" in the default stack. -/
def stC4 : OSDState := AddTypedMessage initialState 3 "dup" 100 0 none ("") false 1 0

/-- A registry on which AddMessageStack was called with the empty string as the stack name. -/
def stEmptyName : OSDState :=
  AddMessageStack initialState 3 4 MessageStackDirection.Upward true true ("")

/-- The registry after adding "hello" with the empty stack name on top of the registered "" stack. -/
def stEmptyName2 : OSDState := AddMessage stEmptyName ("hello") 2000 0 none ("") false 1 0

/-- A message with text "x" already marked for discard. -/
def msgX1 : Message := { Message.make ("x") 0 10000 0 none 1 with should_discard := true }

/-- A live message with text "x". -/
def msgX2 : Message := Message.make ("x") 0 10000 0 none 1

/-- A stack where every tag-1 message with text "x" is marked for discard, while a tag-2 message with the same text is live. -/
def stackC10 : OSDMessageStack :=
  { s_defaultMessageStack with messages := [(1, msgX1), (2, msgX2)] }


theorem DrawMessage_fst_fields (env : DrawEnv) (i : ℕ) (m : Message) (p : ℚ × ℚ)
    (tl : ℤ) (s : OSDMessageStack) :
    (DrawMessage env i m p tl s).1.text = m.text ∧
    (DrawMessage env i m p tl s).1.createdAt = m.createdAt ∧
    (DrawMessage env i m p tl s).1.duration = m.duration ∧
    (DrawMessage env i m p tl s).1.should_discard = m.should_discard ∧
    (DrawMessage env i m p tl s).1.color = m.color ∧
    (DrawMessage env i m p tl s).1.scale = m.scale ∧
    (DrawMessage env i m p tl s).1.ever_drawn = true := by
  unfold DrawMessage
  cases hv : env.beginVisible i <;> simp only [Bool.false_eq_true, if_true, if_false]
  · simp
  · cases hic : m.icon <;> cases ht : m.texture <;> (simp; try (cases htx : env.textureOk <;> simp))

theorem DrawMessage_event_fields (env : DrawEnv) (i : ℕ) (m : Message) (p : ℚ × ℚ)
    (tl : ℤ) (s : OSDMessageStack) :
    (DrawMessage env i m p tl s).2.2.index = i ∧
    (DrawMessage env i m p tl s).2.2.text = m.text ∧
    (DrawMessage env i m p tl s).2.2.duration = m.duration ∧
    (DrawMessage env i m p tl s).2.2.time_left = tl ∧
    (DrawMessage env i m p tl s).2.2.first_draw = !m.ever_drawn ∧
    (DrawMessage env i m p tl s).2.2.visible = env.beginVisible i ∧
    (DrawMessage env i m p tl s).2.2.alpha =
      (if m.ever_drawn then
        stdClamp ((tl : ℚ) / max (min MESSAGE_FADE_TIME (m.duration : ℚ)) 1) 0 1
       else 1) := by
  unfold DrawMessage
  cases hv : env.beginVisible i <;> simp

theorem processMessages_fst_core (env : DrawEnv) (stack : OSDMessageStack) :
    ∀ (ms : List (MessageType × Message)) (cur : ℚ × ℚ) (idx : ℕ),
      (processMessages env stack ms cur idx).1.map entryCore =
      (ms.filter (fun e => visitKeep env.now e.2)).map entryCore := by
  intro ms
  induction ms with
  | nil => intro cur idx; simp [processMessages]
  | cons e rest ih =>
    intro cur idx
    obtain ⟨t, m⟩ := e
    by_cases hd : m.should_discard = true
    · have hk : visitKeep env.now m = false := by simp [visitKeep, hd]
      simp [processMessages, hd, List.filter_cons, hk, ih]
    · by_cases he : m.TimeRemaining env.now ≤ 0 ∧
        (m.ever_drawn = true ∨ MESSAGE_DROP_TIME ≤ -(m.TimeRemaining env.now))
      · have hk : visitKeep env.now m = false := by
          simp only [visitKeep, decide_eq_false_iff_not]
          intro h; exact h.2 he
        simp [processMessages, hd, he, List.filter_cons, hk, ih]
      · have hk : visitKeep env.now m = true := by
          simp only [visitKeep, decide_eq_true_eq]
          exact ⟨hd, he⟩
        by_cases hdr : env.draw_messages = true
        · have hf := DrawMessage_fst_fields env idx m cur (m.TimeRemaining env.now) stack
          simp [processMessages, hd, he, hdr, List.filter_cons, hk, ih, entryCore,
            hf.1, hf.2.1, hf.2.2.1, hf.2.2.2.2.1, hf.2.2.2.2.2.1]
        · simp [processMessages, hd, he, hdr, List.filter_cons, hk, ih]

theorem processMessages_no_discard (env : DrawEnv) (stack : OSDMessageStack) :
    ∀ (ms : List (MessageType × Message)) (cur : ℚ × ℚ) (idx : ℕ),
      ∀ e ∈ (processMessages env stack ms cur idx).1, e.2.should_discard = false := by
  intro ms
  induction ms with
  | nil => intro cur idx e he; simp [processMessages] at he
  | cons hd rest ih =>
    intro cur idx e he
    obtain ⟨t, m⟩ := hd
    by_cases hdis : m.should_discard = true
    · rw [processMessages, if_pos hdis] at he
      exact ih cur idx e he
    · rw [processMessages, if_neg hdis] at he
      by_cases hexp : m.TimeRemaining env.now ≤ 0 ∧
        (m.ever_drawn = true ∨ MESSAGE_DROP_TIME ≤ -(m.TimeRemaining env.now))
      · rw [if_pos hexp] at he
        exact ih cur idx e he
      · rw [if_neg hexp] at he
        by_cases hdr : env.draw_messages = true
        · rw [if_pos hdr] at he
          rcases List.mem_cons.mp he with h | h
          · subst h
            have hf := DrawMessage_fst_fields env idx m cur (m.TimeRemaining env.now) stack
            simpa [hf.2.2.2.1] using (Bool.not_eq_true _).mp hdis
          · exact ih _ _ e h
        · rw [if_neg hdr] at he
          rcases List.mem_cons.mp he with h | h
          · subst h; exact (Bool.not_eq_true _).mp hdis
          · exact ih _ _ e h

theorem processMessages_draw_off (env : DrawEnv) (stack : OSDMessageStack)
    (hdr : env.draw_messages = false) :
    ∀ (ms : List (MessageType × Message)) (cur : ℚ × ℚ) (idx : ℕ),
      (processMessages env stack ms cur idx).1 =
      ms.filter (fun e => visitKeep env.now e.2) := by
  intro ms
  induction ms with
  | nil => intro cur idx; simp [processMessages]
  | cons hd rest ih =>
    intro cur idx
    obtain ⟨t, m⟩ := hd
    by_cases hdis : m.should_discard = true
    · have hk : visitKeep env.now m = false := by simp [visitKeep, hdis]
      simp [processMessages, hdis, List.filter_cons, hk, ih]
    · by_cases hexp : m.TimeRemaining env.now ≤ 0 ∧
        (m.ever_drawn = true ∨ MESSAGE_DROP_TIME ≤ -(m.TimeRemaining env.now))
      · have hk : visitKeep env.now m = false := by
          simp only [visitKeep, decide_eq_false_iff_not]
          intro h; exact h.2 hexp
        simp [processMessages, hdis, hexp, List.filter_cons, hk, ih]
      · have hk : visitKeep env.now m = true := by
          simp only [visitKeep, decide_eq_true_eq]
          exact ⟨hdis, hexp⟩
        simp [processMessages, hdis, hexp, hdr, List.filter_cons, hk, ih]

theorem processMessages_ever_drawn (env : DrawEnv) (stack : OSDMessageStack)
    (hdr : env.draw_messages = true) :
    ∀ (ms : List (MessageType × Message)) (cur : ℚ × ℚ) (idx : ℕ),
      ∀ e ∈ (processMessages env stack ms cur idx).1, e.2.ever_drawn = true := by
  intro ms
  induction ms with
  | nil => intro cur idx e he; simp [processMessages] at he
  | cons hd rest ih =>
    intro cur idx e he
    obtain ⟨t, m⟩ := hd
    by_cases hdis : m.should_discard = true
    · rw [processMessages, if_pos hdis] at he
      exact ih cur idx e he
    · rw [processMessages, if_neg hdis] at he
      by_cases hexp : m.TimeRemaining env.now ≤ 0 ∧
        (m.ever_drawn = true ∨ MESSAGE_DROP_TIME ≤ -(m.TimeRemaining env.now))
      · rw [if_pos hexp] at he
        exact ih cur idx e he
      · rw [if_neg hexp, if_pos hdr] at he
        rcases List.mem_cons.mp he with h | h
        · subst h
          exact (DrawMessage_fst_fields env idx m cur (m.TimeRemaining env.now) stack).2.2.2.2.2.2
        · exact ih _ _ e h

theorem processMessages_draw_off_subset (env : DrawEnv) (stack : OSDMessageStack)
    (hdr : env.draw_messages = false)
    (ms : List (MessageType × Message)) (cur : ℚ × ℚ) (idx : ℕ) :
    ∀ e ∈ (processMessages env stack ms cur idx).1, e ∈ ms := by
  intro e he
  rw [processMessages_draw_off env stack hdr ms cur idx] at he
  exact List.mem_of_mem_filter he

theorem processMessages_event_alpha (env : DrawEnv) (stack : OSDMessageStack) :
    ∀ (ms : List (MessageType × Message)) (cur : ℚ × ℚ) (idx : ℕ),
      ∀ ev ∈ (processMessages env stack ms cur idx).2,
        ev.alpha = if ev.first_draw then 1
          else stdClamp ((ev.time_left : ℚ) / max (min MESSAGE_FADE_TIME (ev.duration : ℚ)) 1) 0 1 := by
  intro ms
  induction ms with
  | nil => intro cur idx ev hev; simp [processMessages] at hev
  | cons hd rest ih =>
    intro cur idx ev hev
    obtain ⟨t, m⟩ := hd
    by_cases hdis : m.should_discard = true
    · rw [processMessages, if_pos hdis] at hev
      exact ih cur idx ev hev
    · rw [processMessages, if_neg hdis] at hev
      by_cases hexp : m.TimeRemaining env.now ≤ 0 ∧
        (m.ever_drawn = true ∨ MESSAGE_DROP_TIME ≤ -(m.TimeRemaining env.now))
      · rw [if_pos hexp] at hev
        exact ih cur idx ev hev
      · rw [if_neg hexp] at hev
        by_cases hdr : env.draw_messages = true
        · rw [if_pos hdr] at hev
          rcases List.mem_cons.mp hev with h | h
          · subst h
            have hf := DrawMessage_event_fields env idx m cur (m.TimeRemaining env.now) stack
            rw [hf.2.2.2.2.2.2, hf.2.2.1, hf.2.2.2.1, hf.2.2.2.2.1]
            cases hed : m.ever_drawn <;> simp
          · exact ih _ _ ev h
        · rw [if_neg hdr] at hev
          exact ih _ _ ev hev

theorem DrawMessage_visible_geometry (env : DrawEnv) (i : ℕ) (m : Message)
    (p : ℚ × ℚ) (tl : ℤ) (s : OSDMessageStack) (hv : env.beginVisible i = true) :
    (DrawMessage env i m p tl s).2.2.size =
      ((env.windowSize i).1 + WINDOW_PADDING * env.fbScale.1,
       (env.windowSize i).2 + WINDOW_PADDING * env.fbScale.2) ∧
    (DrawMessage env i m p tl s).2.1 = (DrawMessage env i m p tl s).2.2.size ∧
    (DrawMessage env i m p tl s).2.2.pos.isSome = true := by
  unfold DrawMessage
  rw [hv]
  simp

theorem DrawMessage_downward_pos (env : DrawEnv) (i : ℕ) (m : Message)
    (p : ℚ × ℚ) (tl : ℤ) (s : OSDMessageStack) (hv : env.beginVisible i = true)
    (hdir : s.dir = MessageStackDirection.Downward) (hcent : s.centered = false) :
    (DrawMessage env i m p tl s).2.2.pos = some (p.1, p.2) := by
  unfold DrawMessage
  rw [hv]
  simp [hdir, hcent]

theorem advanceCursor_down (stack : OSDMessageStack)
    (hdir : stack.dir = MessageStackDirection.Downward) (cur sz : ℚ × ℚ) :
    advanceCursor stack cur sz = (cur.1, cur.2 + sz.2) := by
  simp [advanceCursor, OSDMessageStack.IsVertical, hdir]

theorem processMessages_event_visible (env : DrawEnv) (stack : OSDMessageStack)
    (hvis : ∀ i, env.beginVisible i = true) :
    ∀ (ms : List (MessageType × Message)) (cur : ℚ × ℚ) (idx : ℕ),
      ∀ ev ∈ (processMessages env stack ms cur idx).2,
        ev.size = ((env.windowSize ev.index).1 + WINDOW_PADDING * env.fbScale.1,
                   (env.windowSize ev.index).2 + WINDOW_PADDING * env.fbScale.2) ∧
        ev.pos.isSome = true := by
  intro ms
  induction ms with
  | nil => intro cur idx ev hev; simp [processMessages] at hev
  | cons hd rest ih =>
    intro cur idx ev hev
    obtain ⟨t, m⟩ := hd
    by_cases hdis : m.should_discard = true
    · rw [processMessages, if_pos hdis] at hev
      exact ih cur idx ev hev
    · rw [processMessages, if_neg hdis] at hev
      by_cases hexp : m.TimeRemaining env.now ≤ 0 ∧
        (m.ever_drawn = true ∨ MESSAGE_DROP_TIME ≤ -(m.TimeRemaining env.now))
      · rw [if_pos hexp] at hev
        exact ih cur idx ev hev
      · rw [if_neg hexp] at hev
        by_cases hdr : env.draw_messages = true
        · rw [if_pos hdr] at hev
          rcases List.mem_cons.mp hev with h | h
          · subst h
            have hg := DrawMessage_visible_geometry env idx m cur (m.TimeRemaining env.now)
              stack (hvis idx)
            have hi := (DrawMessage_event_fields env idx m cur (m.TimeRemaining env.now) stack).1
            rw [hi]
            exact ⟨hg.1, hg.2.2⟩
          · exact ih _ _ ev h
        · rw [if_neg hdr] at hev
          exact ih _ _ ev hev

theorem processMessages_ychain (env : DrawEnv) (stack : OSDMessageStack)
    (hdir : stack.dir = MessageStackDirection.Downward) (hcent : stack.centered = false)
    (hdr : env.draw_messages = true) (hvis : ∀ i, env.beginVisible i = true) :
    ∀ (ms : List (MessageType × Message)) (cur : ℚ × ℚ) (idx : ℕ),
      YChain cur.2 (processMessages env stack ms cur idx).2 := by
  intro ms
  induction ms with
  | nil => intro cur idx; simp [processMessages, YChain]
  | cons hd rest ih =>
    intro cur idx
    obtain ⟨t, m⟩ := hd
    by_cases hdis : m.should_discard = true
    · rw [processMessages, if_pos hdis]
      exact ih cur idx
    · rw [processMessages, if_neg hdis]
      by_cases hexp : m.TimeRemaining env.now ≤ 0 ∧
        (m.ever_drawn = true ∨ MESSAGE_DROP_TIME ≤ -(m.TimeRemaining env.now))
      · rw [if_pos hexp]
        exact ih cur idx
      · rw [if_neg hexp, if_pos hdr]
        refine ⟨⟨cur.1, DrawMessage_downward_pos env idx m cur (m.TimeRemaining env.now)
          stack (hvis idx) hdir hcent⟩, ?_⟩
        have hg := DrawMessage_visible_geometry env idx m cur (m.TimeRemaining env.now)
          stack (hvis idx)
        rw [advanceCursor_down stack hdir, hg.2.1]
        exact ih (cur.1, cur.2 +
          (DrawMessage env idx m cur (m.TimeRemaining env.now) stack).2.2.size.2) (idx + 1)

theorem ychain_chain (rel : DrawEvent → DrawEvent → Prop)
    (hrel : ∀ a b : DrawEvent, ∀ x x' y : ℚ, a.pos = some (x, y) →
      b.pos = some (x', y + a.size.2) → 0 < a.size.2 → rel a b) :
    ∀ (evs : List DrawEvent) (y : ℚ), YChain y evs →
      (∀ ev ∈ evs, 0 < ev.size.2) → List.Chain' rel evs := by
  intro evs
  induction evs with
  | nil => intro y _ _; exact List.chain'_nil
  | cons a tl ih =>
    intro y hy hsz
    cases tl with
    | nil => exact List.chain'_singleton a
    | cons b t =>
      obtain ⟨⟨x, hax⟩, hrest⟩ := hy
      obtain ⟨x', hbx⟩ := hrest.1
      refine List.chain'_cons.mpr ⟨?_, ?_⟩
      · exact hrel a b x x' y hax hbx (hsz a (by simp))
      · exact ih (y + a.size.2) hrest (fun ev hev => hsz ev (List.mem_cons_of_mem a hev))

theorem mmInsert_length (t : MessageType) (m : Message) :
    ∀ l : List (MessageType × Message), (mmInsert l t m).length = l.length + 1 := by
  intro l
  induction l with
  | nil => rfl
  | cons e rest ih =>
    by_cases h : e.1 ≤ t
    · simp [mmInsert, h, ih]
    · simp [mmInsert, h]

theorem mmInsert_mem (t : MessageType) (m : Message) :
    ∀ l : List (MessageType × Message), (t, m) ∈ mmInsert l t m := by
  intro l
  induction l with
  | nil => simp [mmInsert]
  | cons e rest ih =>
    by_cases h : e.1 ≤ t
    · simp only [mmInsert, if_pos h]
      exact List.mem_cons_of_mem e ih
    · simp [mmInsert, h]

theorem mmInsert_filter_eq (t : MessageType) (m : Message) :
    ∀ l : List (MessageType × Message), l.Pairwise (fun a b => a.1 ≤ b.1) →
      (mmInsert l t m).filter (fun e => e.1 = t) =
      l.filter (fun e => e.1 = t) ++ [(t, m)] := by
  intro l
  induction l with
  | nil => intro _; simp [mmInsert]
  | cons e rest ih =>
    intro hp
    by_cases h : e.1 ≤ t
    · by_cases he : e.1 = t
      · simp [mmInsert, h, List.filter_cons, he, ih (List.pairwise_cons.mp hp).2]
      · simp [mmInsert, h, List.filter_cons, he, ih (List.pairwise_cons.mp hp).2]
    · have ht : t < e.1 := lt_of_not_le h
      have hrest : ∀ r ∈ rest, e.1 ≤ r.1 := (List.pairwise_cons.mp hp).1
      have hnone : rest.filter (fun e => decide (e.1 = t)) = [] := by
        rw [List.filter_eq_nil_iff]
        intro r hr
        simp only [decide_eq_true_eq]
        exact fun hrt => absurd (hrt ▸ hrest r hr) (not_le_of_lt ht)
      have hne : ¬ e.1 = t := fun hh => absurd (hh ▸ le_refl t) (not_le_of_lt (hh ▸ ht))
      simp [mmInsert, h, List.filter_cons, hne, hnone]

theorem mmInsert_filter_ne (t : MessageType) (m : Message) :
    ∀ l : List (MessageType × Message),
      (mmInsert l t m).filter (fun e => ¬ e.1 = t) =
      l.filter (fun e => ¬ e.1 = t) := by
  intro l
  induction l with
  | nil => simp [mmInsert]
  | cons e rest ih =>
    simp only [decide_not] at ih
    by_cases h : e.1 ≤ t
    · by_cases he : e.1 = t
      · simp [mmInsert, h, List.filter_cons, he, ih, decide_not]
      · simp [mmInsert, h, List.filter_cons, he, ih, decide_not]
    · simp [mmInsert, h, List.filter_cons, decide_not]

theorem mark_filter_eq (t : MessageType) :
    ∀ l : List (MessageType × Message),
      (l.map (fun e => if e.1 = t then (e.1, { e.2 with should_discard := true }) else e)).filter
        (fun e => e.1 = t) =
      (l.filter (fun e => e.1 = t)).map
        (fun e => (e.1, { e.2 with should_discard := true })) := by
  intro l
  induction l with
  | nil => simp
  | cons e rest ih =>
    by_cases h : e.1 = t
    · simp [List.filter_cons, h, ih]
    · simp [List.filter_cons, h, ih]

theorem mark_filter_ne (t : MessageType) :
    ∀ l : List (MessageType × Message),
      (l.map (fun e => if e.1 = t then (e.1, { e.2 with should_discard := true }) else e)).filter
        (fun e => ¬ e.1 = t) =
      l.filter (fun e => ¬ e.1 = t) := by
  intro l
  induction l with
  | nil => simp
  | cons e rest ih =>
    simp only [decide_not] at ih
    by_cases h : e.1 = t
    · simp [List.filter_cons, h, ih, decide_not]
    · simp [List.filter_cons, h, ih, decide_not]

theorem mark_pairwise (t : MessageType) (l : List (MessageType × Message))
    (hp : l.Pairwise (fun a b => a.1 ≤ b.1)) :
    (l.map (fun e => if e.1 = t then (e.1, { e.2 with should_discard := true }) else e)).Pairwise
      (fun a b => a.1 ≤ b.1) := by
  refine List.Pairwise.map _ ?_ hp
  intro a b hab
  have h1 : (if a.1 = t then (a.1, { a.2 with should_discard := true }) else a).1 = a.1 := by
    split <;> rfl
  have h2 : (if b.1 = t then (b.1, { b.2 with should_discard := true }) else b).1 = b.1 := by
    split <;> rfl
  rw [h1, h2]
  exact hab

theorem fade_window_eq (n : ℕ) :
    max (min MESSAGE_FADE_TIME (n : ℚ)) 1 = stdClamp (n : ℚ) 1 1000 := by
  have h0 : (0 : ℚ) ≤ (n : ℚ) := Nat.cast_nonneg n
  unfold stdClamp MESSAGE_FADE_TIME
  split_ifs with h1 h2
  · have ha : (n : ℚ) ≤ 1000 := le_trans (le_of_lt h1) (by norm_num)
    rw [min_eq_right ha, max_eq_right (le_of_lt h1)]
  · rw [min_eq_left (le_of_lt h2)]
    norm_num
  · push_neg at h1 h2
    rw [min_eq_right h2, max_eq_left h1]

theorem mapSet_self (k : String) :
    ∀ l : List (String × OSDMessageStack), mapContains l k = true →
      mapSet l k (mapGetD l k) = l := by
  intro l
  induction l with
  | nil => intro h; simp [mapContains] at h
  | cons p rest ih =>
    intro h
    obtain ⟨a, b⟩ := p
    by_cases hk : a = k
    · subst hk
      simp [mapSet, mapGetD, List.find?]
    · have hc : mapContains rest k = true := by
        simpa [mapContains, hk] using h
      have hg : mapGetD ((a, b) :: rest) k = mapGetD rest k := by
        simp [mapGetD, List.find?, hk]
      rw [hg]
      simp [mapSet, hk, ih hc]

theorem texts_of_filter (type : MessageType) :
    ∀ l : List (MessageType × Message),
      (l.filter (fun e => e.1 = type)).map (fun e => e.2.text) =
      ((l.map entryCore).filter (fun c => c.1 = type)).map (fun c => c.2.1) := by
  intro l
  induction l with
  | nil => simp
  | cons e rest ih =>
    by_cases h : e.1 = type
    · simp [List.filter_cons, entryCore, h, ih]
    · simp [List.filter_cons, entryCore, h, ih]

theorem addToStack_messages (s : OSDMessageStack) (type : MessageType)
    (message : String) (ms argb : ℕ) (icon : Option Icon) (scale : ℚ) (now : ℤ)
    (htype : type ≠ Typeless) :
    (addToStack s type message ms argb icon false scale now).messages =
      mmInsert (s.messages.map (fun e =>
        if e.1 = type then (e.1, { e.2 with should_discard := true }) else e)) type
        (Message.make message now ms argb icon scale) := by
  rw [addToStack, if_neg (by simp)]
  simp [htype]

theorem addToStack_appends (stack : OSDMessageStack) (type : MessageType)
    (message : String) (ms argb : ℕ) (icon : Option Icon) (pd : Bool) (scale : ℚ)
    (now : ℤ) (hnd : stack.HasMessage message type = false) :
    (addToStack stack type message ms argb icon pd scale now).messages.length =
      stack.messages.length + 1
    ∧ (addToStack stack type message ms argb icon pd scale now).HasMessage message type = true := by
  have hcond : ¬ (pd = true ∧ stack.HasMessage message type = true) := by
    intro hh
    rw [hnd] at hh
    exact Bool.false_ne_true hh.2
  rw [addToStack, if_neg (by simpa using hcond)]
  by_cases ht : type = Typeless
  · rw [if_neg (by simp [ht])]
    constructor
    · simp [mmInsert_length]
    · rw [OSDMessageStack.HasMessage, List.any_eq_true]
      refine ⟨(type, Message.make message now ms argb icon scale), mmInsert_mem _ _ _, ?_⟩
      simp [Message.make]
  · rw [if_pos ht]
    constructor
    · simp [mmInsert_length]
    · rw [OSDMessageStack.HasMessage, List.any_eq_true]
      refine ⟨(type, Message.make message now ms argb icon scale), mmInsert_mem _ _ _, ?_⟩
      simp [Message.make]

theorem AddTypedMessage_unknown_name (st : OSDState) (type : MessageType)
    (message : String) (ms argb : ℕ) (icon : Option Icon) (name : String) (pd : Bool)
    (scale : ℚ) (now : ℤ) (hunk : mapContains st.messageStacks name = false) :
    ((AddTypedMessage st type message ms argb icon name pd scale now).messageStacks =
      st.messageStacks)
    ∧ ((AddTypedMessage st type message ms argb icon name pd scale now).defaultStack =
        addToStack st.defaultStack type message ms argb icon pd scale now)
    ∧ (st.defaultStack.HasMessage message type = false →
        (AddTypedMessage st type message ms argb icon name pd scale now).defaultStack.messages.length
          = st.defaultStack.messages.length + 1
        ∧ (AddTypedMessage st type message ms argb icon name pd
            scale now).defaultStack.HasMessage message type = true) := by
  rw [AddTypedMessage, if_neg (by simp [hunk])]
  refine ⟨rfl, rfl, ?_⟩
  intro hnd
  exact addToStack_appends st.defaultStack type message ms argb icon pd scale now hnd

/-- C1: a visited, unmarked message is removed exactly when its remaining time
`timeLeft = duration - elapsedMs` is at most 0 and either `everDrawn` holds or
the message has been expired for at least 5000 ms; consequently a duration-0
message survives a pass (and is drawn, when drawing is enabled) while fewer
than 5000 ms have elapsed, is removed on any pass after it was drawn once, and
when drawing never happened it is removed at the first pass at which 5000 ms
have elapsed. -/
theorem claim1_expiry_removal (env : DrawEnv) (stack : OSDMessageStack)
    (cur : ℚ × ℚ) (idx : ℕ) :
    (∀ ms : List (MessageType × Message), (∀ e ∈ ms, e.2.should_discard = false) →
      (processMessages env stack ms cur idx).1.map entryCore =
      (ms.filter (fun e => ¬ (e.2.TimeRemaining env.now ≤ 0 ∧
        (e.2.ever_drawn = true ∨ 5000 ≤ -(e.2.TimeRemaining env.now))))).map entryCore)
    ∧ (∀ (t : MessageType) (m : Message), m.duration = 0 → m.ever_drawn = false →
        m.should_discard = false → 0 ≤ env.now - m.createdAt → env.now - m.createdAt < 5000 →
        (env.draw_messages = true →
          ∃ m', (processMessages env stack [(t, m)] cur idx).1 = [(t, m')] ∧
            m'.text = m.text ∧ m'.ever_drawn = true)
        ∧ (env.draw_messages = false →
            (processMessages env stack [(t, m)] cur idx).1 = [(t, m)]))
    ∧ (∀ (t : MessageType) (m : Message), m.duration = 0 → m.ever_drawn = true →
        0 ≤ env.now - m.createdAt →
        (processMessages env stack [(t, m)] cur idx).1 = [])
    ∧ (∀ (t : MessageType) (m : Message), m.duration = 0 → m.ever_drawn = false →
        5000 ≤ env.now - m.createdAt →
        (processMessages env stack [(t, m)] cur idx).1 = []) := by
  refine ⟨?_, ?_, ?_, ?_⟩
  · intro ms hnd
    rw [processMessages_fst_core]
    congr 1
    refine List.filter_congr ?_
    intro e he
    simp [visitKeep, hnd e he, MESSAGE_DROP_TIME]
  · intro t m hdur hed hdis h0 h5
    have htl : m.TimeRemaining env.now = -(env.now - m.createdAt) := by
      simp [Message.TimeRemaining, hdur]
    have hexp : ¬ (m.TimeRemaining env.now ≤ 0 ∧
        (m.ever_drawn = true ∨ MESSAGE_DROP_TIME ≤ -(m.TimeRemaining env.now))) := by
      rw [htl, hed]
      simp only [MESSAGE_DROP_TIME, neg_neg]
      intro hh
      rcases hh.2 with h | h
      · exact Bool.false_ne_true h
      · omega
    constructor
    · intro hdr
      refine ⟨(DrawMessage env idx m cur (m.TimeRemaining env.now) stack).1, ?_, ?_, ?_⟩
      · rw [processMessages, if_neg (by simp [hdis]), if_neg hexp, if_pos hdr]
        simp [processMessages]
      · exact (DrawMessage_fst_fields env idx m cur (m.TimeRemaining env.now) stack).1
      · exact (DrawMessage_fst_fields env idx m cur (m.TimeRemaining env.now) stack).2.2.2.2.2.2
    · intro hdr
      rw [processMessages, if_neg (by simp [hdis]), if_neg hexp, if_neg (by simp [hdr])]
      simp [processMessages]
  · intro t m hdur hed h0
    have hexp : m.TimeRemaining env.now ≤ 0 ∧
        (m.ever_drawn = true ∨ MESSAGE_DROP_TIME ≤ -(m.TimeRemaining env.now)) := by
      constructor
      · simp only [Message.TimeRemaining, hdur]
        omega
      · exact Or.inl hed
    by_cases hdis : m.should_discard = true
    · rw [processMessages, if_pos hdis]
      simp [processMessages]
    · rw [processMessages, if_neg hdis, if_pos hexp]
      simp [processMessages]
  · intro t m hdur hed h5
    have hexp : m.TimeRemaining env.now ≤ 0 ∧
        (m.ever_drawn = true ∨ MESSAGE_DROP_TIME ≤ -(m.TimeRemaining env.now)) := by
      constructor
      · simp only [Message.TimeRemaining, hdur]
        omega
      · refine Or.inr ?_
        simp only [Message.TimeRemaining, hdur, MESSAGE_DROP_TIME]
        omega
    by_cases hdis : m.should_discard = true
    · rw [processMessages, if_pos hdis]
      simp [processMessages]
    · rw [processMessages, if_neg hdis, if_pos hexp]
      simp [processMessages]

theorem claim1_witness :
    msgZero.duration = 0 ∧ msgZero.ever_drawn = false ∧ msgZero.should_discard = false ∧
    0 ≤ envDraw.now - msgZero.createdAt ∧ envDraw.now - msgZero.createdAt < 5000 ∧
    envDraw.draw_messages = true ∧
    (∃ m', (processMessages envDraw s_defaultMessageStack [(1, msgZero)] (0, 0) 0).1 =
      [(1, m')] ∧ m'.text = msgZero.text ∧ m'.ever_drawn = true) :=
  ⟨rfl, rfl, rfl, by decide, by decide, rfl,
   ((claim1_expiry_removal envDraw s_defaultMessageStack (0, 0) 0).2.1 1 msgZero rfl rfl rfl
     (by decide) (by decide)).1 rfl⟩

/-- C2: on every draw of a message the alpha pushed for its window equals
`clamp(timeLeft / clamp(duration, 1, 1000), 0, 1)`, except on the very first
draw (`everDrawn` still false) where it is exactly 1. -/
theorem claim2_alpha (env : DrawEnv) (stack : OSDMessageStack) :
    (∀ (index : ℕ) (msg : Message) (pos : ℚ × ℚ) (time_left : ℤ),
      (DrawMessage env index msg pos time_left stack).2.2.alpha =
        if msg.ever_drawn = true then
          stdClamp ((time_left : ℚ) / stdClamp (msg.duration : ℚ) 1 1000) 0 1
        else 1)
    ∧ (∀ (ms : List (MessageType × Message)) (cur : ℚ × ℚ) (idx : ℕ),
        ∀ ev ∈ (processMessages env stack ms cur idx).2,
          ev.alpha = if ev.first_draw = true then 1
            else stdClamp ((ev.time_left : ℚ) / stdClamp ((ev.duration : ℚ)) 1 1000) 0 1) := by
  constructor
  · intro index msg pos time_left
    rw [(DrawMessage_event_fields env index msg pos time_left stack).2.2.2.2.2.2,
      fade_window_eq]
  · intro ms cur idx ev hev
    rw [processMessages_event_alpha env stack ms cur idx ev hev, fade_window_eq]

theorem claim2_witness :
    ((DrawMessage envDraw 0 msgA (0, 0) 500 s_defaultMessageStack).2.2.alpha =
      if msgA.ever_drawn = true then
        stdClamp ((500 : ℚ) / stdClamp ((msgA.duration : ℚ)) 1 1000) 0 1
      else 1)
    ∧ ((DrawMessage envDraw 0 msgA ((0 : ℚ), (0 : ℚ)) (msgA.TimeRemaining envDraw.now)
          s_defaultMessageStack).2.2.alpha =
        if (DrawMessage envDraw 0 msgA ((0 : ℚ), (0 : ℚ)) (msgA.TimeRemaining envDraw.now)
            s_defaultMessageStack).2.2.first_draw = true then 1
        else stdClamp (((DrawMessage envDraw 0 msgA ((0 : ℚ), (0 : ℚ))
            (msgA.TimeRemaining envDraw.now) s_defaultMessageStack).2.2.time_left : ℚ) /
          stdClamp (((DrawMessage envDraw 0 msgA ((0 : ℚ), (0 : ℚ))
            (msgA.TimeRemaining envDraw.now) s_defaultMessageStack).2.2.duration : ℚ))
            1 1000) 0 1) :=
  ⟨(claim2_alpha envDraw s_defaultMessageStack).1 0 msgA (0, 0) 500,
   (claim2_alpha envDraw s_defaultMessageStack).2 [(1, msgA)] (0, 0) 0 _ (by
     have hev : (processMessages envDraw s_defaultMessageStack [(1, msgA)] (0, 0) 0).2 =
         [(DrawMessage envDraw 0 msgA ((0 : ℚ), (0 : ℚ)) (msgA.TimeRemaining envDraw.now)
           s_defaultMessageStack).2.2] := by
       rw [processMessages, if_neg (by decide), if_neg (by decide),
         if_pos (show envDraw.draw_messages = true from rfl)]
       simp [processMessages]
     rw [hev]
     exact List.mem_singleton_self _)⟩

/-- C3: an AddTypedMessage call with a non-typeless tag and
`preventDuplicate = false` marks every same-tagged message of the target
stack `shouldDiscard` (removing none itself), inserts the new message after
them, leaves other tags untouched, and the next draw pass erases each marked
message, so only the new message of that tag survives while it is unexpired. -/
theorem claim3_typed_replacement (s : OSDMessageStack) (type : MessageType)
    (message : String) (ms argb : ℕ) (icon : Option Icon) (scale : ℚ) (now : ℤ)
    (htype : type ≠ Typeless)
    (hsorted : s.messages.Pairwise (fun a b => a.1 ≤ b.1)) :
    ((addToStack s type message ms argb icon false scale now).messages.filter
        (fun e => e.1 = type) =
      (s.messages.filter (fun e => e.1 = type)).map
        (fun e => (e.1, { e.2 with should_discard := true }))
        ++ [(type, Message.make message now ms argb icon scale)])
    ∧ ((addToStack s type message ms argb icon false scale now).messages.filter
        (fun e => ¬ e.1 = type) =
      s.messages.filter (fun e => ¬ e.1 = type))
    ∧ ((addToStack s type message ms argb icon false scale now).messages.length =
        s.messages.length + 1)
    ∧ (∀ (env : DrawEnv) (stack2 : OSDMessageStack) (cur : ℚ × ℚ) (idx : ℕ),
        ∀ e ∈ (processMessages env stack2
            (addToStack s type message ms argb icon false scale now).messages cur idx).1,
          e.2.should_discard = false)
    ∧ (∀ (env : DrawEnv) (stack2 : OSDMessageStack) (cur : ℚ × ℚ) (idx : ℕ),
        0 < (ms : ℤ) - (env.now - now) →
        ((processMessages env stack2
            (addToStack s type message ms argb icon false scale now).messages cur idx).1.filter
          (fun e => e.1 = type)).map (fun e => e.2.text) = [message]) := by
  rw [addToStack_messages s type message ms argb icon scale now htype]
  have hmarked := mark_pairwise type s.messages hsorted
  refine ⟨?_, ?_, ?_, ?_, ?_⟩
  · rw [mmInsert_filter_eq _ _ _ hmarked, mark_filter_eq]
  · rw [mmInsert_filter_ne, mark_filter_ne]
  · rw [mmInsert_length, List.length_map]
  · intro env stack2 cur idx
    exact processMessages_no_discard env stack2 _ cur idx
  · intro env stack2 cur idx htl
    have hcomm : ∀ L : List (MessageType × Message),
        List.filter (fun e => decide (e.1 = type))
          (List.filter (fun e => visitKeep env.now e.2) L) =
        List.filter (fun e => visitKeep env.now e.2)
          (List.filter (fun e => decide (e.1 = type)) L) := by
      intro L
      rw [List.filter_filter, List.filter_filter]
      exact List.filter_congr (fun x _ => Bool.and_comm _ _)
    rw [texts_of_filter, processMessages_fst_core, ← texts_of_filter, hcomm,
      mmInsert_filter_eq _ _ _ hmarked, mark_filter_eq, List.filter_append]
    have h1 : ((s.messages.filter (fun e => e.1 = type)).map
        (fun e => (e.1, { e.2 with should_discard := true }))).filter
        (fun e => visitKeep env.now e.2) = [] := by
      rw [List.filter_eq_nil_iff]
      intro e he
      obtain ⟨e0, _, he0⟩ := List.mem_map.mp he
      rw [← he0]
      simp [visitKeep]
    have h2 : visitKeep env.now (Message.make message now ms argb icon scale) = true := by
      simp only [visitKeep, Message.make, Message.TimeRemaining, decide_eq_true_eq]
      refine ⟨by simp, ?_⟩
      intro hh
      omega
    rw [h1, List.nil_append, List.filter_cons, if_pos h2]
    simp [Message.make]

theorem claim3_witness :
    ((1 : MessageType) ≠ Typeless) ∧
    stackOne.messages.Pairwise (fun a b => a.1 ≤ b.1) ∧
    (addToStack stackOne 1 "new" 300 0 none false 1 0).messages.length =
      stackOne.messages.length + 1 :=
  ⟨by decide, by simp [stackOne],
   (claim3_typed_replacement stackOne 1 "new" 300 0 none 1 0 (by decide)
     (by simp [stackOne])).2.2.1⟩

/-- C4: an AddTypedMessage call with `preventDuplicate = true` whose target
stack already holds a message with the same tag and identical text leaves the
whole registry completely unchanged. -/
theorem claim4_prevent_duplicate (st : OSDState) (type : MessageType) (message : String)
    (ms argb : ℕ) (icon : Option Icon) (message_stack : String) (scale : ℚ) (now : ℤ)
    (h : (selectStack st message_stack).HasMessage message type = true) :
    AddTypedMessage st type message ms argb icon message_stack true scale now = st := by
  by_cases hc : mapContains st.messageStacks message_stack = true
  · rw [selectStack, if_pos hc] at h
    rw [AddTypedMessage, if_pos hc, addToStack, if_pos (by simp [h]), mapSet_self _ _ hc]
  · rw [selectStack, if_neg hc] at h
    rw [AddTypedMessage, if_neg hc, addToStack, if_pos (by simp [h])]

theorem claim4_witness :
    (selectStack stC4 ("")).HasMessage ("dup") 3 = true ∧
    AddTypedMessage stC4 3 "dup" 100 0 none ("") true 1 5 = stC4 :=
  ⟨by decide, claim4_prevent_duplicate stC4 3 "dup" 100 0 none ("") 1 5 (by decide)⟩

/-- C5 (amended): for a stack with `reversed = true` the draw pass visits the
stored type-ordered sequence in reverse, so for two messages with the SAME
type tag where A was added before B, B is visited and drawn before A; across
different type tags the order is reverse tag order, not recency (see the
counterexample). -/
theorem claim5_reversed_newest_first_same_tag (env : DrawEnv) (cfg : OSDMessageStack)
    (t : MessageType) (A B : Message) (hrev : cfg.reversed = true)
    (hmsgs : cfg.messages = [(t, A), (t, B)]) (hdr : env.draw_messages = true)
    (hA : visitKeep env.now A = true) (hB : visitKeep env.now B = true) :
    (DrawMessagesStack env cfg).2.map (fun ev => ev.text) = [B.text, A.text] := by
  have hA' := (decide_eq_true_eq).mp hA
  have hB' := (decide_eq_true_eq).mp hB
  simp only [DrawMessagesStack, hrev, if_true, hmsgs, List.reverse_cons,
    List.reverse_nil, List.nil_append, List.cons_append]
  have step2 : ∀ (cur : ℚ × ℚ) (idx : ℕ),
      (processMessages env cfg [(t, A)] cur idx).2 =
      [(DrawMessage env idx A cur (A.TimeRemaining env.now) cfg).2.2] := by
    intro cur idx
    rw [processMessages, if_neg hA'.1, if_neg hA'.2, if_pos hdr]
    simp [processMessages]
  have step1 : (processMessages env cfg [(t, B), (t, A)] (startCursor env cfg) 0).2 =
      (DrawMessage env 0 B (startCursor env cfg) (B.TimeRemaining env.now) cfg).2.2 ::
      (processMessages env cfg [(t, A)]
        (advanceCursor cfg (startCursor env cfg)
          (DrawMessage env 0 B (startCursor env cfg) (B.TimeRemaining env.now) cfg).2.1) 1).2 := by
    rw [processMessages, if_neg hB'.1, if_neg hB'.2, if_pos hdr]
  rw [step1, step2, List.map_cons, List.map_cons, List.map_nil,
    (DrawMessage_event_fields env 0 B _ _ cfg).2.1,
    (DrawMessage_event_fields env 1 A _ _ cfg).2.1]

theorem claim5_witness :
    stackRevSame.reversed = true ∧
    stackRevSame.messages = [(1, msgA), (1, msgB)] ∧
    envDraw.draw_messages = true ∧
    visitKeep envDraw.now msgA = true ∧
    visitKeep envDraw.now msgB = true ∧
    (DrawMessagesStack envDraw stackRevSame).2.map (fun ev => ev.text) =
      [msgB.text, msgA.text] :=
  ⟨rfl, rfl, rfl, by decide, by decide,
   claim5_reversed_newest_first_same_tag envDraw stackRevSame 1 msgA msgB rfl rfl rfl
     (by decide) (by decide)⟩

/-- C5 counterexample: in a reversed stack, "A" added first under tag 2 and "B"
added second under tag 1 are drawn in the order A then B, refuting that the
newer message is visited first regardless of the type tags. -/
theorem claim5_counterexample :
    stackRevCross.reversed = true ∧
    stackRevCross.messages.map (fun e => (e.2.text, e.2.createdAt)) = [("B", 5), ("A", 0)] ∧
    (DrawMessagesStack envDraw stackRevCross).2.map (fun ev => ev.text) = ["A", "B"] := by
  decide

/-- C6 (amended): while the draw toggle is off a draw pass returns every
surviving message unchanged (so `everDrawn` never becomes true); while it is
on, every surviving message has `everDrawn` true after its visit - the draw
attempt sets it even when the backend reports the window not visible. -/
theorem claim6_ever_drawn (env : DrawEnv) (stack : OSDMessageStack)
    (ms : List (MessageType × Message)) (cur : ℚ × ℚ) (idx : ℕ) :
    (env.draw_messages = false → ∀ e ∈ (processMessages env stack ms cur idx).1, e ∈ ms)
    ∧ (env.draw_messages = true →
        ∀ e ∈ (processMessages env stack ms cur idx).1, e.2.ever_drawn = true) :=
  ⟨fun hdr => processMessages_draw_off_subset env stack hdr ms cur idx,
   fun hdr => processMessages_ever_drawn env stack hdr ms cur idx⟩

theorem claim6_witness :
    envOff.draw_messages = false ∧
    (∀ e ∈ (processMessages envOff s_defaultMessageStack [(1, msgA)] (0, 0) 0).1,
      e ∈ [(1, msgA)]) :=
  ⟨rfl, (claim6_ever_drawn envOff s_defaultMessageStack [(1, msgA)] (0, 0) 0).1 rfl⟩

/-- C6 counterexample: with drawing enabled but the backend reporting the window
not visible, a freshly created message comes out of the pass with
`everDrawn = true`, refuting that `everDrawn` requires a visible draw. -/
theorem claim6_counterexample :
    envHidden.draw_messages = true ∧
    msgA.ever_drawn = false ∧
    (processMessages envHidden s_defaultMessageStack [(1, msgA)] (0, 0) 0).2.map
      (fun ev => ev.visible) = [false] ∧
    (processMessages envHidden s_defaultMessageStack [(1, msgA)] (0, 0) 0).1.map
      (fun e => e.2.ever_drawn) = [true] := by
  decide

/-- C7 (amended): an Add* call whose stackName is the empty string targets the
implicit default stack provided no stack has been registered under the empty
name; when such a stack exists the call targets it instead (see the
counterexample). -/
theorem claim7_empty_name_default (st : OSDState) (type : MessageType)
    (message : String) (ms argb : ℕ) (icon : Option Icon) (pd : Bool)
    (scale : ℚ) (now : ℤ) (hnone : mapContains st.messageStacks ("") = false) :
    ((AddTypedMessage st type message ms argb icon ("") pd scale now).messageStacks =
      st.messageStacks)
    ∧ ((AddTypedMessage st type message ms argb icon ("") pd scale now).defaultStack =
        addToStack st.defaultStack type message ms argb icon pd scale now)
    ∧ (st.defaultStack.HasMessage message type = false →
        (AddTypedMessage st type message ms argb icon ("") pd scale now).defaultStack.messages.length
          = st.defaultStack.messages.length + 1
        ∧ (AddTypedMessage st type message ms argb icon ("") pd
            scale now).defaultStack.HasMessage message type = true) :=
  AddTypedMessage_unknown_name st type message ms argb icon ("") pd scale now hnone

theorem claim7_witness :
    mapContains initialState.messageStacks ("") = false ∧
    (AddTypedMessage initialState 1 "hi" 100 0 none ("") false 1 0).messageStacks =
      initialState.messageStacks ∧
    (AddTypedMessage initialState 1 "hi" 100 0 none ("") false 1 0).defaultStack =
      addToStack initialState.defaultStack 1 "hi" 100 0 none false 1 0 :=
  ⟨rfl, (claim7_empty_name_default initialState 1 "hi" 100 0 none false 1 0 rfl).1,
   (claim7_empty_name_default initialState 1 "hi" 100 0 none false 1 0 rfl).2.1⟩

/-- C7 counterexample: after `AddMessageStack` registers a stack under the empty
name, an AddMessage call with empty stackName lands in that registered stack
and the default stack stays empty. -/
theorem claim7_counterexample :
    mapContains stEmptyName.messageStacks ("") = true ∧
    stEmptyName2.defaultStack.messages = [] ∧
    (mapGetD stEmptyName2.messageStacks ("")).messages.map (fun e => e.2.text) = ["hello"] := by
  decide

/-- C8: an Add* call naming an unregistered stack operates on the default stack:
the registered stacks are untouched, the result on the default stack is
exactly the single-stack add operation, and when no duplicate suppresses it
the message is appended there; the operation is total, no error is surfaced. -/
theorem claim8_unknown_stack_fallback (st : OSDState) (type : MessageType)
    (message : String) (ms argb : ℕ) (icon : Option Icon) (name : String) (pd : Bool)
    (scale : ℚ) (now : ℤ) (hunk : mapContains st.messageStacks name = false) :
    ((AddTypedMessage st type message ms argb icon name pd scale now).messageStacks =
      st.messageStacks)
    ∧ ((AddTypedMessage st type message ms argb icon name pd scale now).defaultStack =
        addToStack st.defaultStack type message ms argb icon pd scale now)
    ∧ (st.defaultStack.HasMessage message type = false →
        (AddTypedMessage st type message ms argb icon name pd scale now).defaultStack.messages.length
          = st.defaultStack.messages.length + 1
        ∧ (AddTypedMessage st type message ms argb icon name pd
            scale now).defaultStack.HasMessage message type = true) :=
  AddTypedMessage_unknown_name st type message ms argb icon name pd scale now hunk

theorem claim8_witness :
    mapContains initialState.messageStacks ("notify") = false ∧
    initialState.defaultStack.HasMessage ("hey") 0 = false ∧
    ((AddTypedMessage initialState 0 "hey" 100 0 none ("notify") false 1 0).defaultStack.messages.length =
      initialState.defaultStack.messages.length + 1) ∧
    (AddTypedMessage initialState 0 "hey" 100 0 none ("notify") false 1 0).defaultStack.HasMessage
      "hey" 0 = true :=
  ⟨rfl, rfl,
   ((claim8_unknown_stack_fallback initialState 0 "hey" 100 0 none ("notify") false 1 0
     rfl).2.2 rfl).1,
   ((claim8_unknown_stack_fallback initialState 0 "hey" 100 0 none ("notify") false 1 0
     rfl).2.2 rfl).2⟩

/-- C9: for a downward, non-centered stack with drawing enabled and every window
reported visible with nonnegative height and a positive framebuffer scale,
the drawn windows sit at strictly increasing y positions, each exceeding the
previous by the previous window footprint, which is the backend-reported
height plus the 4-pixel padding scaled by the framebuffer scale. -/
theorem claim9_downward_layout (env : DrawEnv) (stack : OSDMessageStack)
    (hdir : stack.dir = MessageStackDirection.Downward) (hcent : stack.centered = false)
    (hdr : env.draw_messages = true) (hvis : ∀ i, env.beginVisible i = true)
    (hsz : ∀ i, 0 ≤ (env.windowSize i).2) (hscale : 0 < env.fbScale.2) :
    (∀ ev ∈ (DrawMessagesStack env stack).2,
      ev.pos.isSome = true ∧
      ev.size.2 = (env.windowSize ev.index).2 + WINDOW_PADDING * env.fbScale.2)
    ∧ List.Chain' (fun a b => ∃ pa pb, a.pos = some pa ∧ b.pos = some pb ∧
        pb.2 = pa.2 + a.size.2 ∧ pa.2 < pb.2) (DrawMessagesStack env stack).2 := by
  have hsizes : ∀ ev ∈ (DrawMessagesStack env stack).2,
      ev.size = ((env.windowSize ev.index).1 + WINDOW_PADDING * env.fbScale.1,
                 (env.windowSize ev.index).2 + WINDOW_PADDING * env.fbScale.2) ∧
      ev.pos.isSome = true := by
    intro ev hev
    rw [DrawMessagesStack] at hev
    by_cases hrev : stack.reversed = true
    · rw [if_pos hrev] at hev
      exact processMessages_event_visible env stack hvis _ _ _ ev hev
    · rw [if_neg hrev] at hev
      exact processMessages_event_visible env stack hvis _ _ _ ev hev
  have hpos : ∀ ev ∈ (DrawMessagesStack env stack).2, 0 < ev.size.2 := by
    intro ev hev
    rw [(hsizes ev hev).1]
    have h1 : (0 : ℚ) < WINDOW_PADDING * env.fbScale.2 := by
      have : (0 : ℚ) < WINDOW_PADDING := by norm_num [WINDOW_PADDING]
      exact mul_pos this hscale
    have h2 := hsz ev.index
    simp only []
    linarith
  have hchain : YChain (startCursor env stack).2 (DrawMessagesStack env stack).2 := by
    rw [DrawMessagesStack]
    by_cases hrev : stack.reversed = true
    · rw [if_pos hrev]
      exact processMessages_ychain env stack hdir hcent hdr hvis _ _ _
    · rw [if_neg hrev]
      exact processMessages_ychain env stack hdir hcent hdr hvis _ _ _
  refine ⟨fun ev hev => ⟨(hsizes ev hev).2, by rw [(hsizes ev hev).1]⟩, ?_⟩
  refine ychain_chain _ ?_ (DrawMessagesStack env stack).2 (startCursor env stack).2
    hchain hpos
  intro a b x x' y hax hbx hsz2
  refine ⟨(x, y), (x', y + a.size.2), hax, hbx, rfl, ?_⟩
  show y < y + a.size.2
  linarith

theorem claim9_witness :
    stackTwo.dir = MessageStackDirection.Downward ∧
    stackTwo.centered = false ∧
    envDraw.draw_messages = true ∧
    (0 : ℚ) < envDraw.fbScale.2 ∧
    List.Chain' (fun a b => ∃ pa pb, a.pos = some pa ∧ b.pos = some pb ∧
      pb.2 = pa.2 + a.size.2 ∧ pa.2 < pb.2) (DrawMessagesStack envDraw stackTwo).2 :=
  ⟨rfl, rfl, rfl, by decide,
   (claim9_downward_layout envDraw stackTwo rfl rfl rfl (fun _ => rfl)
     (fun _ => by show (0 : ℚ) ≤ (7 : ℚ); norm_num) (by decide)).2⟩

/-- C10 (amended): duplicate suppression also matches messages already marked
for discard: when the target stack holds a message with the given tag and
text and every such message is marked, an AddTypedMessage call with
`preventDuplicate = true` is a no-op, and after the next draw pass no message
with that tag and that text remains; a message with the same text under a
different tag may survive (see the counterexample). -/
theorem claim10_discarded_duplicates (s : OSDMessageStack) (type : MessageType)
    (message : String) (ms argb : ℕ) (icon : Option Icon) (scale : ℚ) (now : ℤ)
    (hex : s.HasMessage message type = true)
    (hall : ∀ e ∈ s.messages, e.1 = type → e.2.text = message →
      e.2.should_discard = true) :
    (addToStack s type message ms argb icon true scale now = s)
    ∧ (∀ (env : DrawEnv) (stack2 : OSDMessageStack) (cur : ℚ × ℚ) (idx : ℕ),
        ∀ e ∈ (processMessages env stack2 s.messages cur idx).1,
          ¬ (e.1 = type ∧ e.2.text = message)) := by
  constructor
  · rw [addToStack, if_pos (by simp [hex])]
  · intro env stack2 cur idx e he hcontra
    have hmem : entryCore e ∈ (processMessages env stack2 s.messages cur idx).1.map entryCore :=
      List.mem_map_of_mem entryCore he
    rw [processMessages_fst_core] at hmem
    obtain ⟨e0, he0, hce⟩ := List.mem_map.mp hmem
    have he0mem : e0 ∈ s.messages := List.mem_of_mem_filter he0
    have hkeep := List.of_mem_filter he0
    simp only [entryCore, Prod.mk.injEq] at hce
    have hdisc : e0.2.should_discard = true :=
      hall e0 he0mem (hce.1.trans hcontra.1) (hce.2.1.trans hcontra.2)
    simp only [visitKeep, decide_eq_true_eq] at hkeep
    exact hkeep.1 hdisc

theorem claim10_witness :
    stackC10.HasMessage ("x") 1 = true ∧
    addToStack stackC10 1 "x" 100 0 none true 1 0 = stackC10 :=
  ⟨by decide, (claim10_discarded_duplicates stackC10 1 "x" 100 0 none 1 0 (by decide)
    (by decide)).1⟩

/-- C10 counterexample: with every tag-1 "x" message marked for discard but a
live tag-2 "x" message present, the duplicate-preventing call is a no-op, yet
after the draw pass the stack still contains a message with text "x". -/
theorem claim10_counterexample :
    (∀ e ∈ stackC10.messages, e.1 = 1 → e.2.text = "x" → e.2.should_discard = true) ∧
    addToStack stackC10 1 "x" 100 0 none true 1 0 = stackC10 ∧
    (processMessages envDraw stackC10 stackC10.messages (0, 0) 0).1.map
      (fun e => e.2.text) = ["x"] := by
  decide

end OSD
